import Mathlib

/-!
# Verification of the Codex CLI streaming adapter

Shallow embedding of the Codex CLI provider core:
`src/api/providers/codex-cli.ts` (event normalization, usage accounting,
error classification, prompt building, auth-mode environment),
`src/integrations/codex/run.ts` (argument construction, auth probing)
and `src/integrations/codex/message-filter.ts` (image filtering).
The repository carries two revisions of the provider and runner; the
embedding follows the newer revision (the one with auth modes, output
schema, sandbox and full-auto options), which is the revision the
specification describes.

Raw events are arbitrary JSON values, modelled by the `Json` inductive
below.  JavaScript truthiness, `??` (nullish coalescing), `||`
(logical or) and strict equality against literals are modelled by
explicit helper functions.  JSON numbers are modelled as integers:
the numeric coercion semantics of JavaScript arithmetic on
non-numeric operands (string concatenation and `ToNumber`) are not
modelled; the helpers are exact on numbers and absent fields, the only
shapes the settled claims touch.
-/

/-- A parsed JSON value, as produced by `JSON.parse` on one stdout line.
Numbers are modelled as integers (token counts and indices in the
protocol are integral). -/
inductive Json where
  | null
  | bool (b : Bool)
  | num (n : Int)
  | str (s : String)
  | arr (elems : List Json)
  | obj (fields : List (String × Json))

/-- JavaScript truthiness of a value: `null`, `false`, `0` and `""` are
falsy; arrays and objects are always truthy. -/
def Json.truthy : Json → Bool
  | .null => false
  | .bool b => b
  | .num n => n != 0
  | .str s => s != ""
  | .arr _ => true
  | .obj _ => true

/-- First binding of a key in an object's field list. -/
def lookupField : List (String × Json) → String → Option Json
  | [], _ => none
  | (k, v) :: rest, key => if k = key then some v else lookupField rest key

/-- Property access `value.key`: defined on objects, `undefined` (here
`none`) on every other value, matching `?.` access and plain access on
non-null non-object values. -/
def Json.get : Json → String → Option Json
  | .obj fields, key => lookupField fields key
  | _, _ => none

/-- Truthiness of a possibly-`undefined` value (`none` is falsy). -/
def otruthy : Option Json → Bool
  | none => false
  | some v => v.truthy

/-- Optional chaining `value?.key` through a possibly-`undefined` value. -/
def oget (o : Option Json) (key : String) : Option Json :=
  match o with
  | none => none
  | some v => v.get key

/-- JavaScript `a ?? b`: `b` exactly when `a` is `undefined` or `null`. -/
def nullish (a b : Option Json) : Option Json :=
  match a with
  | none => b
  | some .null => b
  | some v => some v

/-- JavaScript `a ?? d` with a definite default value. -/
def jsNullishD (a : Option Json) (d : Json) : Json :=
  match a with
  | none => d
  | some .null => d
  | some v => v

/-- JavaScript `a || b`: `a` when truthy, otherwise `b`. -/
def jsOr (a b : Option Json) : Option Json :=
  if otruthy a then a else b

/-- JavaScript `+` on two values, exact on numbers.  The coercing
semantics for non-numeric operands are not modelled (no settled claim
reaches them). -/
def jsAdd : Json → Json → Json
  | .num a, .num b => .num (a + b)
  | _, _ => .null

/-- JavaScript `v > 0`, exact on numbers; non-numeric coercion is not
modelled. -/
def jsGtZero : Json → Bool
  | .num n => decide (0 < n)
  | _ => false

/-- Strict equality `v === 0`. -/
def jsIsZero : Json → Bool
  | .num n => n == 0
  | _ => false

/-- The proper suffixes of a list, longest first, ending with `[]`. -/
def listTails : List Char → List (List Char)
  | [] => [[]]
  | c :: cs => (c :: cs) :: listTails cs

/-- JavaScript `String.prototype.includes`: substring containment. -/
def strContains (s pat : String) : Bool :=
  (listTails s.data).any fun t => pat.data.isPrefixOf t

/-- A whitespace character as trimmed by JavaScript
`String.prototype.trim` (the ASCII cases). -/
def isJsWhitespace (c : Char) : Bool :=
  c == ' ' || c == '\t' || c == '\n' || c == '\r'

/-- JavaScript `String.prototype.trim`. -/
def jsTrim (s : String) : String :=
  ⟨((s.data.dropWhile isJsWhitespace).reverse.dropWhile isJsWhitespace).reverse⟩

/-- JavaScript `String.prototype.toLowerCase` (ASCII case folding). -/
def jsToLower (s : String) : String :=
  ⟨s.data.map Char.toLower⟩

/-- Strict equality `value.type === tag` for a string literal tag. -/
def typeIs (v : Json) (tag : String) : Bool :=
  match v.get "type" with
  | some (.str s) => s == tag
  | _ => false

/-- Strict equality `value.status === tag` for a string literal tag. -/
def statusIs (v : Json) (tag : String) : Bool :=
  match v.get "status" with
  | some (.str s) => s == tag
  | _ => false

example : strContains "unknown command: auth" "unknown command" = true := by decide
example : strContains "abc" "" = true := by decide
example : strContains "abc" "ac" = false := by decide
example : jsOr (some (.str "")) none = none := rfl
example : nullish (some (.str "")) (some (.num 1)) = some (.str "") := rfl

/-!
## EventNormalizer and UsageAccountant

Embedding of `CodexCliHandler.processEvent`, `CodexCliHandler.normalizeUsage`
and `getCodexError` from `src/api/providers/codex-cli.ts`.  The external
pure cost function `calculateApiCostOpenAI`, already applied to the
model's pricing descriptor, is abstracted as a parameter `cost` taking
the four values the source passes it (input, output, cache-write and
cache-read tokens) and returning the total cost.
-/

/-- A normalized usage chunk.  Token fields carry the raw values the
source puts in the chunk (JSON values); optional fields are `none`
exactly when the source leaves them `undefined`. -/
structure UsageChunk where
  inputTokens : Json
  outputTokens : Json
  cacheWriteTokens : Option Json
  cacheReadTokens : Option Json
  reasoningTokens : Option Json
  totalCost : Int

/-- The normalized stream chunk union yielded to the caller. -/
inductive StreamChunk where
  | text (t : Json)
  | reasoning (t : Json)
  | toolCallPartial (index : Json) (id : Option Json) (name : Option Json) (arguments : Option Json)
  | usage (u : UsageChunk)

/-- Embedding of `CodexCliHandler.normalizeUsage`: extract token counts from the
legacy field-name alternatives and derive the cost via the external
cost function `cost`. -/
def normalizeUsage (cost : Json → Json → Json → Json → Int) (usage : Option Json) :
    Option UsageChunk :=
  if ¬ otruthy usage then none
  else
    let u := usage.getD .null
    let inputDetails : Option Json := nullish (u.get "input_tokens_details") (u.get "prompt_tokens_details")
    let cachedTokens : Json := jsNullishD (oget inputDetails "cached_tokens") (.num 0)
    let cacheMissTokens : Json := jsNullishD (oget inputDetails "cache_miss_tokens") (.num 0)
    let inputTokens0 : Json := jsNullishD (nullish (u.get "input_tokens") (u.get "prompt_tokens")) (.num 0)
    let inputTokens : Json :=
      if jsIsZero inputTokens0 && (jsGtZero cachedTokens || jsGtZero cacheMissTokens) then
        jsAdd cachedTokens cacheMissTokens
      else inputTokens0
    let outputTokens : Json := jsNullishD (nullish (u.get "output_tokens") (u.get "completion_tokens")) (.num 0)
    let cacheWriteTokens : Json :=
      jsNullishD (nullish (u.get "cache_creation_input_tokens") (u.get "cache_write_tokens")) (.num 0)
    let cacheReadTokens : Json :=
      jsNullishD (nullish (u.get "cache_read_input_tokens")
        (nullish (u.get "cache_read_tokens")
          (nullish (u.get "cached_tokens") (some cachedTokens)))) (.num 0)
    some
      { inputTokens := inputTokens
        outputTokens := outputTokens
        cacheWriteTokens := if cacheWriteTokens.truthy then some cacheWriteTokens else none
        cacheReadTokens := if cacheReadTokens.truthy then some cacheReadTokens else none
        reasoningTokens :=
          match oget (u.get "output_tokens_details") "reasoning_tokens" with
          | some (.num n) => some (.num n)
          | _ => none
        totalCost := cost inputTokens outputTokens cacheWriteTokens cacheReadTokens }

/-- Access `event?.choices?.[0]`: first element of the `choices` array. -/
def choicesFirst (event : Json) : Option Json :=
  match event.get "choices" with
  | some (.arr (c :: _)) => some c
  | _ => none

/-- Access `event?.choices?.[0]?.delta?.content`. -/
def choicesContent (event : Json) : Option Json :=
  oget (oget (choicesFirst event) "delta") "content"

/-- The guard `event?.item && typeof event.item.text === "string" &&
event.item.text.length > 0`, returning the non-empty text when it holds. -/
def eventItemText (event : Json) : Option String :=
  match event.get "item" with
  | some item =>
    if item.truthy then
      match item.get "text" with
      | some (.str s) => if s ≠ "" then some s else none
      | _ => none
    else none
  | none => none

/-- The `event?.message?.content` branch: yields only when the content is
a non-empty string; every other truthy content falls through. -/
def messageContentStr (event : Json) : Option String :=
  match oget (event.get "message") "content" with
  | some (.str s) => if s ≠ "" then some s else none
  | _ => none

/-- The `event?.text` branch guard: truthy and of string type. -/
def eventTextField (event : Json) : Option String :=
  match event.get "text" with
  | some (.str s) => if s ≠ "" then some s else none
  | _ => none

/-- The nested-item handler of the `response.output_item.added/done`
branch: literal text item, literal reasoning item, or a `message` item
whose content array contributes one text chunk per recognized block. -/
def outputItemChunks (item : Json) : List StreamChunk :=
  if typeIs item "text" && otruthy (item.get "text") then
    [.text ((item.get "text").getD .null)]
  else if typeIs item "reasoning" && otruthy (item.get "text") then
    [.reasoning ((item.get "text").getD .null)]
  else if typeIs item "message" then
    match item.get "content" with
    | some (.arr contents) =>
      contents.filterMap fun c =>
        if (typeIs c "text" || typeIs c "output_text") && otruthy (c.get "text") then
          some (.text ((c.get "text").getD .null))
        else none
    | _ => []
  else []

/-- The usage object handed to the accountant:
`event?.response?.usage || event?.usage`. -/
def eventUsageObject (event : Json) : Option Json :=
  jsOr (oget (event.get "response") "usage") (event.get "usage")

/-- Embedding of `CodexCliHandler.processEvent`: classify one parsed event into zero
or more stream chunks, first match wins. -/
def processEvent (cost : Json → Json → Json → Json → Int) (event : Json) : List StreamChunk :=
  if typeIs event "response.text.delta" || typeIs event "response.output_text.delta" then
    match event.get "delta" with
    | some d => if d.truthy then [.text d] else []
    | none => []
  else if typeIs event "response.reasoning.delta" || typeIs event "response.reasoning_text.delta"
      || typeIs event "response.reasoning_summary.delta"
      || typeIs event "response.reasoning_summary_text.delta" then
    match event.get "delta" with
    | some d => if d.truthy then [.reasoning d] else []
    | none => []
  else if typeIs event "response.tool_call_arguments.delta"
      || typeIs event "response.function_call_arguments.delta" then
    [.toolCallPartial
      (jsNullishD (event.get "index") (.num 0))
      (jsOr (event.get "call_id") (jsOr (event.get "tool_call_id") (event.get "id")))
      (jsOr (event.get "name") (event.get "function_name"))
      (jsOr (event.get "delta") (event.get "arguments"))]
  else if typeIs event "response.output_item.added" || typeIs event "response.output_item.done" then
    match event.get "item" with
    | some item => if item.truthy then outputItemChunks item else []
    | none => []
  else if typeIs event "response.done" || typeIs event "response.completed" then
    match normalizeUsage cost (eventUsageObject event) with
    | some u => [.usage u]
    | none => []
  else if otruthy (choicesContent event) then
    [.text ((choicesContent event).getD .null)]
  else if (eventItemText event).isSome then
    [.text (.str ((eventItemText event).getD ""))]
  else if (messageContentStr event).isSome then
    [.text (.str ((messageContentStr event).getD ""))]
  else if (eventTextField event).isSome then
    [.text (.str ((eventTextField event).getD ""))]
  else
    match normalizeUsage cost (eventUsageObject event) with
    | some u => [.usage u]
    | none => []

/-- The `type` field coerced to a string
(`typeof event.type === "string" ? event.type : ""`). -/
def codexErrorType (event : Json) : String :=
  match event.get "type" with
  | some (.str s) => s
  | _ => ""

/-- Payload `event.error ?? event`: the error payload inspected for a message. -/
def codexErrorPayload (event : Json) : Json :=
  match event.get "error" with
  | some .null | none => event
  | some v => v

/-- The message extraction of `getCodexError`: a string payload is
returned as-is; else a truthy `message` on the payload; else the
event's own non-empty string `message`; else the generic fallback. -/
def codexErrorMessage (event : Json) : Option Json :=
  match codexErrorPayload event with
  | .str s => some (.str s)
  | _ =>
    if otruthy ((codexErrorPayload event).get "message") then
      (codexErrorPayload event).get "message"
    else
      match event.get "message" with
      | some (.str s) =>
        if s ≠ "" then some (.str s) else some (.str "Codex CLI returned an error.")
      | _ => some (.str "Codex CLI returned an error.")

/-- Embedding of `getCodexError`: classify an event as an error, returning the thrown
message (the event's own message, the error payload, or the generic
fallback), or `none` for a non-error event. -/
def getCodexError (event : Json) : Option Json :=
  if ¬ event.truthy then none
  else if strContains (codexErrorType event) "error" || statusIs event "error"
      || otruthy (event.get "error") then
    codexErrorMessage event
  else none

/-- The per-event body of `createMessage`'s streaming loop: the error
classifier runs first and its result is thrown under a truthiness guard
(`const errorMessage = getCodexError(event); if (errorMessage) throw`),
terminating the stream before the chunk-classification dispatch; a
falsy extracted message (absent, or an empty-string error payload) does
not throw and the event is dispatched normally. -/
def handleEvent (cost : Json → Json → Json → Json → Int) (event : Json) :
    Except Json (List StreamChunk) :=
  if otruthy (getCodexError event) then .error ((getCodexError event).getD .null)
  else .ok (processEvent cost event)

/-!
## PromptBuilder and message filter

Embedding of `filterMessagesForCodexCli` from
`src/integrations/codex/message-filter.ts` and of `buildCodexPrompt` /
`convertContent` from `src/api/providers/codex-cli.ts`, over a model of
the Anthropic chat-message content blocks the source consumes.
-/

/-- The `source` record of an Anthropic image block: a source kind tag
and, for base64 sources, a media type (`none` models a source object
without a `media_type` key). -/
structure ImageSource where
  srcType : String
  mediaType : Option String

/-- A nested block inside a `tool_result` content array: the source only
distinguishes `text` blocks from everything else. -/
inductive TRBlock where
  | text (t : String)
  | other (ty : String)

/-- The `content` of a `tool_result` block: a string or an array of
nested blocks (`none` via `Option` below models an absent content key). -/
inductive ToolResultContent where
  | str (s : String)
  | blocks (bs : List TRBlock)

/-- An Anthropic content block as consumed by the filter and converter;
`other` stands for any block whose `type` tag is none of the recognized
ones (e.g. `document`, `thinking`). -/
inductive AnthropicBlock where
  | text (t : String)
  | image (source : Option ImageSource)
  | toolUse (id name : String) (input : Json)
  | toolResult (toolUseId : String) (content : Option ToolResultContent)
  | other (ty : String)

/-- Message content: a plain string or an array of blocks. -/
inductive MessageContent where
  | str (s : String)
  | blocks (bs : List AnthropicBlock)

inductive Role where
  | user
  | assistant
deriving DecidableEq

/-- One chat message handed to the prompt builder. -/
structure ChatMessage where
  role : Role
  content : MessageContent

/-- Resolution `block.source?.type || "unknown"`. -/
def imageSourceType (source : Option ImageSource) : String :=
  match source with
  | some s => if s.srcType = "" then "unknown" else s.srcType
  | none => "unknown"

/-- Resolution of the media type:
`block.source && "media_type" in block.source ? block.source.media_type : "unknown"`. -/
def imageMediaType (source : Option ImageSource) : String :=
  match source with
  | some s => match s.mediaType with | some m => m | none => "unknown"
  | none => "unknown"

/-- The placeholder text substituted for an image block. -/
def imagePlaceholderText (source : Option ImageSource) : String :=
  "[Image (" ++ imageSourceType source ++ "): " ++ imageMediaType source
    ++ " not supported by Codex CLI]"

/-- The per-block map of `filterMessagesForCodexCli`: images become text
placeholders, every other block passes through unchanged. -/
def filterBlockForCodexCli : AnthropicBlock → AnthropicBlock
  | .image source => .text (imagePlaceholderText source)
  | b => b

/-- The per-message body of `filterMessagesForCodexCli`'s `map`:
string content passes through, block arrays are mapped block-wise. -/
def filterMessageForCodexCli (message : ChatMessage) : ChatMessage :=
  match message.content with
  | .str _ => message
  | .blocks bs => { message with content := .blocks (bs.map filterBlockForCodexCli) }

/-- Embedding of `filterMessagesForCodexCli`: replace image blocks with text
placeholders, leaving string content and all other blocks unchanged. -/
def filterMessagesForCodexCli (messages : List ChatMessage) : List ChatMessage :=
  messages.map filterMessageForCodexCli

/-- A content block of the Codex CLI prompt payload
(`CodexCliMessageContent` in `packages/types`): the payload type has no
image variant at all. -/
inductive CodexBlock where
  | text (t : String)
  | toolUse (id name : String) (input : Json)
  | toolResult (toolUseId : String) (content : ToolResultContent)

/-- Payload message content: string or converted blocks. -/
inductive CodexContent where
  | str (s : String)
  | blocks (bs : List CodexBlock)

/-- The nested rendering of a `tool_result` block's content: strings pass
through; in a block array only `text` blocks are kept (`null`-mapped
blocks are filtered out); any other shape becomes an empty array. -/
def convertToolResultContent : Option ToolResultContent → ToolResultContent
  | some (.str s) => .str s
  | some (.blocks bs) => .blocks (bs.filterMap fun b =>
      match b with
      | .text t => some (.text t)
      | .other _ => none)
  | none => .blocks []

/-- The per-block body of `convertContent`'s `map` callback: recognized
blocks are converted, every other block is mapped to `null` (here
`none`) and removed by the subsequent `filter(Boolean)`. -/
def convertBlock : AnthropicBlock → Option CodexBlock
  | .text t => some (.text t)
  | .toolUse id name input => some (.toolUse id name input)
  | .toolResult toolUseId content => some (.toolResult toolUseId (convertToolResultContent content))
  | .image _ => none
  | .other _ => none

/-- Embedding of `convertContent`: string content passes through; block arrays are
mapped block-wise and `null` results are dropped.  The source contains
no `throw`; the function is total. -/
def convertContent : MessageContent → CodexContent
  | .str s => .str s
  | .blocks bs => .blocks (bs.filterMap convertBlock)

/-- The prompt payload (`CodexCliMessagePayload`). -/
structure CodexPayload where
  systemPrompt : Option String
  messages : List (Role × CodexContent)

/-- Embedding of `buildCodexPrompt`: filter messages, trim the system prompt (omit it
when blank), and convert each message's content. -/
def buildCodexPrompt (systemPrompt : String) (messages : List ChatMessage) : CodexPayload :=
  let filteredMessages := filterMessagesForCodexCli messages
  let trimmedSystemPrompt := jsTrim systemPrompt
  { systemPrompt := if trimmedSystemPrompt ≠ "" then some trimmedSystemPrompt else none
    messages := filteredMessages.map fun message => (message.role, convertContent message.content) }

/-!
## Auth mode and spawn environment

Embedding of `getCodexAuthEnv` and the pre-spawn portion of
`createMessage` from the provider, and `mergeEnv` from the runner.
Environments are modelled as maps from variable names to optional values.
-/

inductive CodexCliAuthMode where
  | chatgpt
  | apiKey
deriving DecidableEq

/-- Embedding of `getCodexAuthEnv`: `undefined` unless the auth mode is API-key based
with a truthy (non-empty) key; otherwise an override object binding
`OPENAI_API_KEY` to the configured key. -/
def getCodexAuthEnv (authMode : CodexCliAuthMode) (apiKey : Option String) :
    Option (String → Option String) :=
  match authMode, apiKey with
  | .apiKey, some k =>
    if k = "" then none
    else some fun name => if name = "OPENAI_API_KEY" then some k else none
  | _, _ => none

/-- Embedding of `mergeEnv`, the spread `{ ...process.env, ...env }` — the inherited process
environment with caller-supplied overrides winning on key collisions. -/
def mergeEnv (processEnv : String → Option String) (env : Option (String → Option String)) :
    String → Option String :=
  fun name =>
    match env with
    | none => processEnv name
    | some e =>
      match e name with
      | some v => some v
      | none => processEnv name

/-- The authentication-relevant pre-spawn portion of `createMessage`: resolve the
auth mode (defaulting to `chatgpt`), build the override environment,
invoke `ensureCodexLogin` only in `chatgpt` mode, and spawn the process
with the merged environment.  The first component records whether
`ensureCodexLogin` is invoked; the second is the environment the
spawned process receives (`mergeEnv` applied inside `runProcess`). -/
def createMessageSetup (authModeOpt : Option CodexCliAuthMode) (apiKey : Option String)
    (processEnv : String → Option String) : Bool × (String → Option String) :=
  let authMode := authModeOpt.getD .chatgpt
  let env := getCodexAuthEnv authMode apiKey
  (authMode = CodexCliAuthMode.chatgpt, mergeEnv processEnv env)

/-!
## AuthManager

Embedding of `getCodexAuthStatus`, `getCodexAuthStatusFromExec`,
`parseAuthStatus`, `isUnsupportedAuthCommand` and
`formatCodexCliError` from `src/integrations/codex/run.ts` (newer
revision).  The two subprocess invocations (the structured `auth status
--json` probe and the trivial `exec` probe) are external effects; their
outcomes are passed in as values: a tier-1 outcome carries either the
parsed JSON of the probe's stdout (`none` standing for blank or
unparsable output, both of which `parseAuthStatus` maps to the empty
result) or the thrown error, and the exec-probe outcome is success or a
thrown error.
-/

/-- A thrown subprocess error as consumed by `formatCodexCliError`:
either a bare string or an error object with the optional `stderr`,
`shortMessage`, `message` and string-typed `cause` fields. -/
inductive ThrownError where
  | str (s : String)
  | err (stderr shortMessage message cause : Option String)

/-- First non-empty string in a list, or `""` — the `||` chain of
`formatCodexCliError`. -/
def firstTruthy : List String → String
  | [] => ""
  | s :: rest => if s ≠ "" then s else firstTruthy rest

/-- Embedding of `formatCodexCliError`: stderr, short message, message and string
cause in order, each trimmed where the source trims, first non-empty
wins, defaulting to the empty string. -/
def formatCodexCliError : ThrownError → String
  | .str s => s
  | .err stderr shortMessage message cause =>
    firstTruthy [jsTrim (stderr.getD ""), jsTrim (shortMessage.getD ""),
      jsTrim (message.getD ""), cause.getD ""]

/-- Embedding of `isUnsupportedAuthCommand`: the failure text, lowercased, contains
one of the four markers of an unrecognized subcommand. -/
def isUnsupportedAuthCommand (message : String) : Bool :=
  let normalized := jsToLower message
  strContains normalized "unknown command"
    || strContains normalized "unrecognized command"
    || strContains normalized "unknown subcommand"
    || strContains normalized "invalid choice"

/-- Check `typeof parsed === "object"`: objects, arrays and `null`. -/
def Json.isObjLike : Json → Bool
  | .obj _ => true
  | .arr _ => true
  | .null => true
  | _ => false

/-- The `status` string fallback of `parseAuthStatus`: a lowercase
status containing "unauth"/"signed-out" means unauthenticated, else
one containing "auth"/"signed-in" means authenticated. -/
def statusStringSignal (p : Json) : Option Bool × Option Json :=
  match p.get "status" with
  | some (.str s) =>
    let normalized := jsToLower s
    if strContains normalized "unauth" || strContains normalized "signed-out" then
      (some false, some p)
    else if strContains normalized "auth" || strContains normalized "signed-in" then
      (some true, some p)
    else (none, some p)
  | _ => (none, some p)

/-- The object branch of `parseAuthStatus`: the `?? `-chain over the
three historical boolean key names, else the status string fallback. -/
def parseAuthObjectSignal (p : Json) : Option Bool × Option Json :=
  match nullish (p.get "authenticated") (nullish (p.get "logged_in") (p.get "loggedIn")) with
  | some (.bool b) => (some b, some p)
  | _ => statusStringSignal p

/-- Embedding of `parseAuthStatus`: look for a boolean under the historical key
names, else a status string signal; returns the recognized
authenticated flag (if any) and the raw parsed value. -/
def parseAuthStatus (parsed : Option Json) : Option Bool × Option Json :=
  match parsed with
  | none => (none, none)
  | some p =>
    if p.truthy && p.isObjLike then parseAuthObjectSignal p
    else (none, some p)

/-- Outcome of the tier-1 structured probe invocation. -/
inductive Tier1Result where
  | success (parsed : Option Json)
  | failure (e : ThrownError)

/-- Outcome of the fallback trivial `exec` invocation. -/
inductive ExecProbeResult where
  | success
  | failure (e : ThrownError)

/-- The `CodexAuthStatus` record. -/
structure CodexAuthStatus where
  authenticated : Bool
  source : String
  raw : Option Json := none
  error : Option String := none

/-- Embedding of `getCodexAuthStatusFromExec`: process success means authenticated;
any failure is unauthenticated with the failure text attached. -/
def getCodexAuthStatusFromExec (probe : ExecProbeResult) : CodexAuthStatus :=
  match probe with
  | .success => { authenticated := true, source := "exec" }
  | .failure e =>
    { authenticated := false, source := "exec"
      error := some (if formatCodexCliError e ≠ "" then formatCodexCliError e
        else "Codex CLI auth check failed.") }

/-- Embedding of `getCodexAuthStatus`: tier-1 success is parsed for a signal
(defaulting to authenticated on no signal); a tier-1 failure triggers
the exec fallback exactly when the failure text indicates an
unsupported subcommand, and is otherwise reported as unauthenticated
with the error text attached. -/
def getCodexAuthStatus (tier1 : Tier1Result) (execProbe : ExecProbeResult) : CodexAuthStatus :=
  match tier1 with
  | .success parsed =>
    match parseAuthStatus parsed with
    | (some b, raw) => { authenticated := b, source := "auth-status", raw := raw }
    | (none, raw) => { authenticated := true, source := "auth-status", raw := raw }
  | .failure e =>
    let errorOutput := formatCodexCliError e
    if isUnsupportedAuthCommand errorOutput then getCodexAuthStatusFromExec execProbe
    else
      { authenticated := false, source := "auth-status"
        error := some (if errorOutput ≠ "" then errorOutput
          else "Codex CLI auth status check failed.") }

/-!
## ProcessRunner argument construction

Embedding of the argument list built by `runProcess` in
`src/integrations/codex/run.ts` (newer revision).
-/

/-- The invocation options `runProcess` consumes for argument
construction. -/
structure RunOptions where
  modelId : Option String
  outputSchema : Option String
  sandbox : Option String
  fullAuto : Option Bool

/-- The argument list `runProcess` passes to the spawned binary: the
base `exec --json` pair, then the conditional model, output-schema,
sandbox and full-auto flags. -/
def runProcessArgs (o : RunOptions) : List String :=
  ["exec", "--json"]
    ++ (match o.modelId.map jsTrim with
      | some s => if s ≠ "" then ["--model", s] else []
      | none => [])
    ++ (match o.outputSchema.map jsTrim with
      | some s => if s ≠ "" then ["--output-schema", s] else []
      | none => [])
    ++ (match o.sandbox.map jsTrim with
      | some s => if s ≠ "" then ["--sandbox", s] else []
      | none => [])
    ++ (if o.fullAuto.getD false then ["--full-auto"] else [])

/-!
## Spec-side definitions

Definitions transcribed from the specification's wording, to be
compared with the source-side definitions above.
-/

/-- Spec: an event "whose type field contains \"error\", or whose status
field equals \"error\", or that carries a non-empty error field" — the
error-classifier trigger.  A non-empty error field is one that is
present and truthy (the design notes state any truthy `error` value is
treated as terminal). -/
def specErrorEvent (event : Json) : Bool :=
  (match event.get "type" with
    | some (.str s) => strContains s "error"
    | _ => false)
    || statusIs event "error"
    || otruthy (event.get "error")

/-- Spec: the recognized block-kind tags of the prompt builder —
string content aside, a block is recognized when it is a text,
tool-use or tool-result block. -/
def isRecognizedBlock : AnthropicBlock → Bool
  | .text _ => true
  | .toolUse _ _ _ => true
  | .toolResult _ _ => true
  | _ => false

/-- Modelled from the spec: block-wise conversion that raises on the
first unrecognized block and otherwise converts like the source. -/
def convertBlocksSpec : List AnthropicBlock → Except String (List CodexBlock)
  | [] => .ok []
  | b :: rest =>
    match convertBlock b with
    | some cb => (convertBlocksSpec rest).map (cb :: ·)
    | none => .error "MalformedMessageError"

/-- Modelled from the spec: the claimed behaviour "fails with
`MalformedMessageError` only if a content block is neither string nor a
recognized block-kind tag" — a converter that raises on the first
unrecognized block and otherwise performs the same conversion as the
source. -/
def convertContentSpecModel : MessageContent → Except String CodexContent
  | .str s => .ok (.str s)
  | .blocks bs => (convertBlocksSpec bs).map .blocks

/-- Spec: a tier-1 failure text "indicating the subcommand itself is
unrecognized (matching any of: \"unknown command\", \"unrecognized
command\", \"unknown subcommand\", \"invalid choice\")",
case-insensitively. -/
def specUnsupportedSubcommand (failureText : String) : Bool :=
  strContains (jsToLower failureText) "unknown command"
    || strContains (jsToLower failureText) "unrecognized command"
    || strContains (jsToLower failureText) "unknown subcommand"
    || strContains (jsToLower failureText) "invalid choice"

/-- A field value that is a boolean. -/
def isBoolField : Option Json → Bool
  | some (.bool _) => true
  | _ => false

/-- Spec: a successful tier-1 output with "no recognizable
authentication signal": no boolean under the keys `authenticated`,
`logged_in`, `loggedIn`, and no status string whose lowercase form
contains "unauth", "signed-out", "auth" or "signed-in". -/
def specNoAuthSignal (parsed : Option Json) : Bool :=
  match parsed with
  | none => true
  | some p =>
    (!(isBoolField (p.get "authenticated") || isBoolField (p.get "logged_in")
        || isBoolField (p.get "loggedIn")))
      && (match p.get "status" with
        | some (.str s) =>
          !(strContains (jsToLower s) "unauth" || strContains (jsToLower s) "signed-out"
            || strContains (jsToLower s) "auth" || strContains (jsToLower s) "signed-in")
        | _ => true)

/-- Spec: the model-selection flag, present with the trimmed model id
exactly when the model id trims to a non-empty string. -/
def specModelFlag (o : RunOptions) : List String :=
  match o.modelId with
  | some m => if jsTrim m ≠ "" then ["--model", jsTrim m] else []
  | none => []

/-- Spec: the full-automation flag, present exactly when the option is
true. -/
def specFullAutoFlag (o : RunOptions) : List String :=
  if o.fullAuto = some true then ["--full-auto"] else []

/-- The output-schema segment of the constructed argument list. -/
def schemaSeg (o : RunOptions) : List String :=
  match o.outputSchema.map jsTrim with
  | some s => if s ≠ "" then ["--output-schema", s] else []
  | none => []

/-- The sandbox-mode segment of the constructed argument list. -/
def sandboxSeg (o : RunOptions) : List String :=
  match o.sandbox.map jsTrim with
  | some s => if s ≠ "" then ["--sandbox", s] else []
  | none => []

/-- A JSON value that is a non-negative number. -/
def isNonnegNum : Json → Bool
  | .num n => decide (0 ≤ n)
  | _ => false

/-- A usage field that is absent, `null`, or a non-negative number. -/
def okTokenField : Option Json → Bool
  | none => true
  | some .null => true
  | some (.num n) => decide (0 ≤ n)
  | some _ => false

/-- Spec-side hypothesis for the non-negativity invariant: every token
field the accountant reads is absent, `null`, or a non-negative
number. -/
def usageFieldsNonneg (usage : Option Json) : Bool :=
  match usage with
  | none => true
  | some u =>
    okTokenField (u.get "input_tokens") && okTokenField (u.get "prompt_tokens")
      && okTokenField (u.get "output_tokens") && okTokenField (u.get "completion_tokens")
      && okTokenField (u.get "cache_creation_input_tokens") && okTokenField (u.get "cache_write_tokens")
      && okTokenField (u.get "cache_read_input_tokens") && okTokenField (u.get "cache_read_tokens")
      && okTokenField (u.get "cached_tokens")
      && okTokenField (oget (nullish (u.get "input_tokens_details") (u.get "prompt_tokens_details")) "cached_tokens")
      && okTokenField (oget (nullish (u.get "input_tokens_details") (u.get "prompt_tokens_details")) "cache_miss_tokens")
      && okTokenField (oget (u.get "output_tokens_details") "reasoning_tokens")

/-- An optional chunk token field that is absent or a non-negative
number. -/
def chunkTokenOk : Option Json → Bool
  | none => true
  | some j => isNonnegNum j

/-- Spec: "token counts in Usage are non-negative integers", over all
five token fields of a usage chunk. -/
def usageChunkNonneg (u : UsageChunk) : Bool :=
  isNonnegNum u.inputTokens && isNonnegNum u.outputTokens
    && chunkTokenOk u.cacheWriteTokens && chunkTokenOk u.cacheReadTokens
    && chunkTokenOk u.reasoningTokens

/-- A block of kind image. -/
def blockIsImage : AnthropicBlock → Bool
  | .image _ => true
  | _ => false

/-- Number of image-kind blocks in one message's content. -/
def contentImageCount : MessageContent → Nat
  | .str _ => 0
  | .blocks bs => (bs.filter blockIsImage).length

/-- Number of image-kind content blocks across a message list. -/
def imageCount (messages : List ChatMessage) : Nat :=
  (messages.map fun m => contentImageCount m.content).sum

/-!
## Shared helper lemmas
-/

theorem mem_listTails_append (a l : List Char) : l ∈ listTails (a ++ l) := by
  induction a with
  | nil => cases l <;> simp [listTails]
  | cons c cs ih => simpa [listTails] using Or.inr ih

theorem isPrefixOf_append_self (p r : List Char) : p.isPrefixOf (p ++ r) = true := by
  induction p with
  | nil => simp [List.isPrefixOf]
  | cons c cs ih => simp [List.isPrefixOf, ih]

theorem strContains_of_parts (s pat : String) (a c : List Char)
    (h : s.data = a ++ pat.data ++ c) : strContains s pat = true := by
  unfold strContains
  rw [h, List.any_eq_true]
  refine ⟨pat.data ++ c, ?_, isPrefixOf_append_self _ _⟩
  simpa [List.append_assoc] using mem_listTails_append a (pat.data ++ c)

theorem string_data_append (a b : String) : (a ++ b).data = a.data ++ b.data := by
  cases a
  cases b
  rfl

/-!
## Claim theorems
-/

/-- C5: for every invocation with auth mode = API-key and a non-empty API
key, `ensureCodexLogin` is never invoked, and the environment handed to
the spawned process equals the inherited process environment with
`OPENAI_API_KEY` overridden to the configured key. -/
theorem apiKeyModeSkipsLoginAndOverridesEnv
    (processEnv : String → Option String) (key name : String) (hk : key ≠ "") :
    (createMessageSetup (some .apiKey) (some key) processEnv).1 = false
      ∧ (createMessageSetup (some .apiKey) (some key) processEnv).2 name
        = (if name = "OPENAI_API_KEY" then some key else processEnv name) := by
  unfold createMessageSetup getCodexAuthEnv mergeEnv
  simp only [Option.getD_some, if_neg hk]
  refine ⟨by decide, ?_⟩
  by_cases hn : name = "OPENAI_API_KEY" <;> simp [hn]

theorem apiKeyModeSkipsLoginAndOverridesEnv_witness :
    ("sk-test" ≠ "")
      ∧ (createMessageSetup (some .apiKey) (some "sk-test") (fun _ => some "inherited")).1 = false
      ∧ (createMessageSetup (some .apiKey) (some "sk-test") (fun _ => some "inherited")).2 "OPENAI_API_KEY"
        = some "sk-test" := by
  have h := apiKeyModeSkipsLoginAndOverridesEnv (fun _ => some "inherited") "sk-test"
    "OPENAI_API_KEY" (by decide)
  exact ⟨by decide, h.1, by rw [h.2]; rfl⟩

/-- C8: the constructed subprocess argument list always contains the
base `exec --json` pair; it contains the model-selection flag with the
trimmed model id exactly when the model id trims to a non-empty string;
and the output-schema, sandbox-mode and full-automation segments are
non-empty only when the corresponding option is present (resp. true). -/
theorem runProcessArgsStructure (o : RunOptions) :
    runProcessArgs o
        = ["exec", "--json"] ++ specModelFlag o ++ schemaSeg o ++ sandboxSeg o ++ specFullAutoFlag o
      ∧ (schemaSeg o ≠ [] → o.outputSchema.isSome = true)
      ∧ (sandboxSeg o ≠ [] → o.sandbox.isSome = true) := by
  obtain ⟨m, os, sb, fa⟩ := o
  refine ⟨?_, ?_, ?_⟩
  · unfold runProcessArgs specModelFlag schemaSeg sandboxSeg specFullAutoFlag
    cases m <;> cases fa <;> simp [Option.map, Option.getD]
  · intro h
    cases os <;> simp_all [schemaSeg]
  · intro h
    cases sb <;> simp_all [sandboxSeg]

theorem runProcessArgsStructure_witness :
    runProcessArgs ⟨some " gpt-5.1-codex ", some " schema.json ", none, some true⟩
        = ["exec", "--json"]
          ++ specModelFlag ⟨some " gpt-5.1-codex ", some " schema.json ", none, some true⟩
          ++ schemaSeg ⟨some " gpt-5.1-codex ", some " schema.json ", none, some true⟩
          ++ sandboxSeg ⟨some " gpt-5.1-codex ", some " schema.json ", none, some true⟩
          ++ specFullAutoFlag ⟨some " gpt-5.1-codex ", some " schema.json ", none, some true⟩
      ∧ Option.isSome (some " schema.json ") = true :=
  ⟨(runProcessArgsStructure _).1,
    (runProcessArgsStructure ⟨some " gpt-5.1-codex ", some " schema.json ", none, some true⟩).2.1
      (by decide)⟩

/-- C4: a tier-1 structured-probe failure triggers the heuristic exec
fallback exactly when the failure text contains one of the four
unsupported-subcommand markers (case-insensitively); any other tier-1
failure is reported as unauthenticated with the error text attached,
without consulting the fallback probe and without throwing. -/
theorem tier1FailureFallbackExactlyOnUnsupportedSubcommand
    (e : ThrownError) (p q : ExecProbeResult) :
    (specUnsupportedSubcommand (formatCodexCliError e) = true →
      getCodexAuthStatus (.failure e) p = getCodexAuthStatusFromExec p)
      ∧ (specUnsupportedSubcommand (formatCodexCliError e) = false →
        getCodexAuthStatus (.failure e) p = getCodexAuthStatus (.failure e) q
          ∧ (getCodexAuthStatus (.failure e) p).authenticated = false
          ∧ (getCodexAuthStatus (.failure e) p).source = "auth-status"
          ∧ (formatCodexCliError e ≠ "" →
            (getCodexAuthStatus (.failure e) p).error = some (formatCodexCliError e))) := by
  have hiff : isUnsupportedAuthCommand (formatCodexCliError e)
      = specUnsupportedSubcommand (formatCodexCliError e) := rfl
  constructor
  · intro h
    simp [getCodexAuthStatus, hiff, h]
  · intro h
    refine ⟨?_, ?_, ?_, ?_⟩ <;> simp [getCodexAuthStatus, hiff, h]
    intro hne
    simp [hne]

theorem tier1FailureFallbackExactlyOnUnsupportedSubcommand_witness :
    getCodexAuthStatus (.failure (.err (some "unknown command: auth") none none none)) .success
        = getCodexAuthStatusFromExec .success
      ∧ (getCodexAuthStatus (.failure (.err (some "permission denied") none none none)) .success).authenticated
        = false :=
  ⟨(tier1FailureFallbackExactlyOnUnsupportedSubcommand
      (.err (some "unknown command: auth") none none none) .success .success).1 (by decide),
    ((tier1FailureFallbackExactlyOnUnsupportedSubcommand
      (.err (some "permission denied") none none none) .success .success).2 (by decide)).2.1⟩

theorem isBoolField_nullish (a b : Option Json)
    (ha : isBoolField a = false) (hb : isBoolField b = false) :
    isBoolField (nullish a b) = false := by
  cases a with
  | none => simpa [nullish] using hb
  | some v => cases v <;> simp_all [nullish, isBoolField]

/-- C9: a successful tier-1 structured probe whose output carries no
recognizable authentication signal is reported as authenticated, from
the structured probe, with no error attached. -/
theorem tier1SuccessNoSignalDefaultsAuthenticated
    (parsed : Option Json) (p : ExecProbeResult) (h : specNoAuthSignal parsed = true) :
    (getCodexAuthStatus (.success parsed) p).authenticated = true
      ∧ (getCodexAuthStatus (.success parsed) p).source = "auth-status"
      ∧ (getCodexAuthStatus (.success parsed) p).error = none := by
  have hparse : (parseAuthStatus parsed).1 = none := by
    cases parsed with
    | none => rfl
    | some pj =>
      simp only [specNoAuthSignal, Bool.and_eq_true, Bool.not_eq_true'] at h
      obtain ⟨h1, h2⟩ := h
      simp only [Bool.or_eq_false_iff] at h1
      obtain ⟨⟨hb1, hb2⟩, hb3⟩ := h1
      have hauth : isBoolField (nullish (pj.get "authenticated")
          (nullish (pj.get "logged_in") (pj.get "loggedIn"))) = false :=
        isBoolField_nullish _ _ hb1 (isBoolField_nullish _ _ hb2 hb3)
      have hstatus : (statusStringSignal pj).1 = none := by
        unfold statusStringSignal
        cases hs : pj.get "status" with
        | none => rfl
        | some sv =>
          cases sv <;> simp_all [Bool.or_eq_false_iff]
      have hobjsig : (parseAuthObjectSignal pj).1 = none := by
        unfold parseAuthObjectSignal
        cases hv : nullish (pj.get "authenticated")
            (nullish (pj.get "logged_in") (pj.get "loggedIn")) with
        | none => exact hstatus
        | some j =>
          cases j <;> simp_all [isBoolField]
      unfold parseAuthStatus
      split
      · rfl
      · rename_i v heq
        injection heq with heq
        subst heq
        split
        · exact hobjsig
        · rfl
  cases hv : parseAuthStatus parsed with
  | mk auth raw =>
    rw [hv] at hparse
    simp at hparse
    subst hparse
    simp [getCodexAuthStatus, hv]

theorem tier1SuccessNoSignalDefaultsAuthenticated_witness :
    specNoAuthSignal (some (.obj [("plan", .str "pro")])) = true
      ∧ (getCodexAuthStatus (.success (some (.obj [("plan", .str "pro")]))) .success).authenticated
        = true :=
  ⟨by decide,
    (tier1SuccessNoSignalDefaultsAuthenticated (some (.obj [("plan", .str "pro")])) .success
      (by decide)).1⟩

/-- The event of end-to-end scenario C. -/
def completedEvent : Json :=
  .obj [("type", .str "response.completed"),
    ("usage", .obj [("input_tokens", .num 10), ("output_tokens", .num 5)])]

/-- C3: the single streamed event
`{type:"response.completed", usage:{input_tokens:10, output_tokens:5}}`
normalizes to exactly one usage chunk with inputTokens 10, outputTokens
5, absent cache fields, and the external cost function's result for
those token counts; and in general a present cache field in a usage
chunk is never zero (zero-valued cache fields are reported as absent). -/
theorem completedEventYieldsSingleUsageChunk (cost : Json → Json → Json → Json → Int) :
    processEvent cost completedEvent
        = [.usage ⟨.num 10, .num 5, none, none, none,
            cost (.num 10) (.num 5) (.num 0) (.num 0)⟩]
      ∧ ∀ usage u, normalizeUsage cost usage = some u →
          (∀ j, u.cacheWriteTokens = some j → j.truthy = true)
            ∧ (∀ j, u.cacheReadTokens = some j → j.truthy = true) := by
  constructor
  · rfl
  · intro usage u h
    unfold normalizeUsage at h
    split at h
    · exact absurd h (by simp)
    · rw [Option.some_inj] at h
      subst h
      constructor <;> intro j hj <;> simp only [] at hj <;> split at hj
        <;> simp_all

theorem completedEventYieldsSingleUsageChunk_witness :
    processEvent (fun _ _ _ _ => 7) completedEvent
        = [.usage ⟨.num 10, .num 5, none, none, none, 7⟩]
      ∧ (Json.num 3).truthy = true :=
  ⟨(completedEventYieldsSingleUsageChunk (fun _ _ _ _ => 7)).1,
    ((completedEventYieldsSingleUsageChunk (fun _ _ _ _ => 7)).2
      (some (.obj [("cache_read_tokens", .num 3)]))
      ⟨.num 0, .num 0, none, some (.num 3), none, 7⟩
      rfl).2 (.num 3) rfl⟩

theorem Json.truthy_of_get_some {event : Json} {k : String} {v : Json}
    (h : event.get k = some v) : event.truthy = true := by
  cases event <;> simp_all [Json.get, Json.truthy]

theorem codexErrorMessage_isSome (event : Json) : (codexErrorMessage event).isSome = true := by
  unfold codexErrorMessage
  cases codexErrorPayload event <;> simp only []
  all_goals first
    | rfl
    | (split
       · rename_i ht
         cases hm : Json.get _ "message" <;> simp_all [otruthy]
       · split <;> simp_all
         split <;> simp)

theorem specErrorEvent_iff_condition (event : Json) :
    specErrorEvent event
      = (strContains (codexErrorType event) "error" || statusIs event "error"
        || otruthy (event.get "error")) := by
  unfold specErrorEvent codexErrorType
  cases hty : event.get "type" with
  | none => simp [show strContains "" "error" = false from by decide]
  | some v => cases v <;> simp [show strContains "" "error" = false from by decide]

/-- C1 counterexample: the event
`{type:"response.error", error:"", text:"hello"}` satisfies the claim's
error condition (its type contains "error"), yet the extracted message
is the falsy empty string, so the `if (errorMessage)` guard does not
throw and the loop dispatches the event — which even yields a text
chunk through the `event?.text` branch. -/
theorem emptyErrorMessageDoesNotRaiseCounterexample :
    specErrorEvent
        (.obj [("type", .str "response.error"), ("error", .str ""), ("text", .str "hello")])
        = true
      ∧ getCodexError
          (.obj [("type", .str "response.error"), ("error", .str ""), ("text", .str "hello")])
        = some (.str "")
      ∧ handleEvent (fun _ _ _ _ => 0)
          (.obj [("type", .str "response.error"), ("error", .str ""), ("text", .str "hello")])
        = Except.ok [.text (.str "hello")] :=
  ⟨by decide, rfl, rfl⟩

/-- C1 amended: for every parsed event whose type field contains
"error", or whose status field equals "error", or that carries a
non-empty (truthy) error field, an error message is extracted before
the chunk-classification dispatch; the stream raises that message
exactly when it is truthy — which is every case except the corner
where the extracted message is the empty string (e.g. a string error
payload `error:""`), in which the event is not raised and is
dispatched normally. -/
theorem errorEventsRaiseExactlyOnTruthyMessage (cost : Json → Json → Json → Json → Int)
    (event : Json) (h : specErrorEvent event = true) :
    (∃ m, getCodexError event = some m)
      ∧ ∀ m, getCodexError event = some m →
          (m.truthy = true → handleEvent cost event = Except.error m)
            ∧ (m.truthy = false →
              handleEvent cost event = Except.ok (processEvent cost event)) := by
  have htr : event.truthy = true := by
    rw [specErrorEvent_iff_condition] at h
    simp only [Bool.or_eq_true] at h
    rcases h with (h | h) | h
    · unfold codexErrorType at h
      cases hty : event.get "type" with
      | none =>
        rw [hty] at h
        exact absurd h (by simp [show strContains "" "error" = false from by decide])
      | some v => exact Json.truthy_of_get_some hty
    · unfold statusIs at h
      cases hs : event.get "status" with
      | none => rw [hs] at h; simp at h
      | some v => exact Json.truthy_of_get_some hs
    · cases he : event.get "error" with
      | none => rw [he] at h; simp [otruthy] at h
      | some v => exact Json.truthy_of_get_some he
  have hge : getCodexError event = codexErrorMessage event := by
    unfold getCodexError
    rw [if_neg (by simp [htr]), if_pos (by rw [← specErrorEvent_iff_condition]; exact h)]
  constructor
  · obtain ⟨m, hm⟩ := Option.isSome_iff_exists.mp (codexErrorMessage_isSome event)
    exact ⟨m, by rw [hge, hm]⟩
  · intro m hm
    constructor
    · intro ht
      unfold handleEvent
      rw [hm]
      simp [otruthy, ht]
    · intro hf
      unfold handleEvent
      rw [hm]
      simp [otruthy, hf]

/-- The event of end-to-end scenario D. -/
def errorEvent : Json :=
  .obj [("type", .str "response.error"), ("error", .obj [("message", .str "Bad request")])]

theorem errorEventsRaiseExactlyOnTruthyMessage_witness :
    specErrorEvent errorEvent = true
      ∧ (Json.str "Bad request").truthy = true
      ∧ handleEvent (fun _ _ _ _ => 7) errorEvent = Except.error (.str "Bad request") :=
  ⟨by decide, by decide,
    ((errorEventsRaiseExactlyOnTruthyMessage (fun _ _ _ _ => 7) errorEvent (by decide)).2
      (.str "Bad request") rfl).1 (by decide)⟩

theorem get_type_of_typeIs {v : Json} {tag : String} (h : typeIs v tag = true) :
    v.get "type" = some (.str tag) := by
  unfold typeIs at h
  cases hg : v.get "type" with
  | none => rw [hg] at h; simp at h
  | some j => cases j <;> rw [hg] at h <;> simp_all

/-- C10: an event typed `response.tool_call_arguments.delta` or
`response.function_call_arguments.delta` yields exactly one
tool-call-partial chunk unconditionally, resolving the call id, name
and argument fragment from their field-name alternatives and the index
from the event's `index` field with default 0 — even when all of those
fields are absent, in which case the optional chunk fields are absent
and the index is 0 — whereas a text or reasoning delta event with an
empty delta yields nothing. -/
theorem toolCallDeltaAlwaysYieldsChunk (cost : Json → Json → Json → Json → Int) (event : Json)
    (h : (typeIs event "response.tool_call_arguments.delta"
      || typeIs event "response.function_call_arguments.delta") = true) :
    processEvent cost event
        = [.toolCallPartial (jsNullishD (event.get "index") (.num 0))
            (jsOr (event.get "call_id") (jsOr (event.get "tool_call_id") (event.get "id")))
            (jsOr (event.get "name") (event.get "function_name"))
            (jsOr (event.get "delta") (event.get "arguments"))]
      ∧ (event.get "index" = none → event.get "call_id" = none →
          event.get "tool_call_id" = none → event.get "id" = none →
          event.get "name" = none → event.get "function_name" = none →
          event.get "delta" = none → event.get "arguments" = none →
          processEvent cost event = [.toolCallPartial (.num 0) none none none])
      ∧ (∀ ev2 : Json,
          (typeIs ev2 "response.text.delta" || typeIs ev2 "response.reasoning.delta") = true →
          ev2.get "delta" = some (.str "") → processEvent cost ev2 = []) := by
  have hty := h
  rw [Bool.or_eq_true] at hty
  have hmain : processEvent cost event
      = [.toolCallPartial (jsNullishD (event.get "index") (.num 0))
          (jsOr (event.get "call_id") (jsOr (event.get "tool_call_id") (event.get "id")))
          (jsOr (event.get "name") (event.get "function_name"))
          (jsOr (event.get "delta") (event.get "arguments"))] := by
    rcases hty with hty | hty <;>
      · have hg := get_type_of_typeIs hty
        simp [processEvent, typeIs, hg]
  refine ⟨hmain, ?_, ?_⟩
  · intro h1 h2 h3 h4 h5 h6 h7 h8
    rw [hmain]
    simp [h1, h2, h3, h4, h5, h6, h7, h8, jsOr, jsNullishD, otruthy]
  · intro ev2 h2 hd
    rw [Bool.or_eq_true] at h2
    rcases h2 with h2 | h2 <;>
      · have hg := get_type_of_typeIs h2
        simp [processEvent, typeIs, hg, hd, Json.truthy]

/-- A minimal tool-call delta event carrying no fields besides its type. -/
def bareToolCallEvent : Json :=
  .obj [("type", .str "response.tool_call_arguments.delta")]

theorem toolCallDeltaAlwaysYieldsChunk_witness :
    processEvent (fun _ _ _ _ => 7) bareToolCallEvent
        = [.toolCallPartial (.num 0) none none none]
      ∧ processEvent (fun _ _ _ _ => 7)
          (.obj [("type", .str "response.text.delta"), ("delta", .str "")]) = [] :=
  ⟨(toolCallDeltaAlwaysYieldsChunk (fun _ _ _ _ => 7) bareToolCallEvent
      (by decide)).2.1 rfl rfl rfl rfl rfl rfl rfl rfl,
    (toolCallDeltaAlwaysYieldsChunk (fun _ _ _ _ => 7) bareToolCallEvent (by decide)).2.2
      (.obj [("type", .str "response.text.delta"), ("delta", .str "")]) (by decide) rfl⟩

/-- C2 counterexample: on a content-block array containing an
unrecognized block (here a `thinking`-tagged block), the spec-modelled
builder raises `MalformedMessageError`, but the source's
`convertContent` does not fail — it silently drops the block and
returns the remaining converted content. -/
theorem promptBuilderNeverRaisesCounterexample :
    convertContentSpecModel (.blocks [.other "thinking", .text "hi"])
        = .error "MalformedMessageError"
      ∧ convertContent (.blocks [.other "thinking", .text "hi"]) = .blocks [.text "hi"] :=
  ⟨rfl, rfl⟩

theorem convertBlocksSpec_ok (bs : List AnthropicBlock) (h : bs.all isRecognizedBlock = true) :
    convertBlocksSpec bs = .ok (bs.filterMap convertBlock) := by
  induction bs with
  | nil => rfl
  | cons b rest ih =>
    rw [List.all_cons, Bool.and_eq_true] at h
    obtain ⟨hb, hrest⟩ := h
    cases b <;>
      simp_all [convertBlocksSpec, convertBlock, isRecognizedBlock, List.filterMap_cons,
        Except.map]

/-- C2 amended: the prompt builder is total and never fails; a content
block that is neither a string nor a recognized block-kind tag is
silently dropped (the output has exactly one converted block per
recognized input block), and on fully recognized input the source
builder agrees with the spec-modelled failing builder. -/
theorem convertContentDropsUnrecognizedBlocks (bs : List AnthropicBlock) :
    convertContent (.blocks bs) = .blocks (bs.filterMap convertBlock)
      ∧ (bs.filterMap convertBlock).length = (bs.filter isRecognizedBlock).length
      ∧ (bs.all isRecognizedBlock = true →
          convertContentSpecModel (.blocks bs) = .ok (convertContent (.blocks bs))) := by
  refine ⟨rfl, ?_, ?_⟩
  · induction bs with
    | nil => rfl
    | cons b rest ih =>
      cases b <;> simp_all [convertBlock, isRecognizedBlock, List.filterMap_cons, List.filter_cons]
  · intro h
    simp [convertContentSpecModel, convertBlocksSpec_ok bs h, convertContent, Except.map]

theorem convertContentDropsUnrecognizedBlocks_witness :
    ([AnthropicBlock.text "hi"].all isRecognizedBlock = true)
      ∧ convertContentSpecModel (.blocks [.text "hi"])
        = .ok (convertContent (.blocks [.text "hi"])) :=
  ⟨rfl, (convertContentDropsUnrecognizedBlocks [.text "hi"]).2.2 rfl⟩

theorem strContains_placeholder_source (source : Option ImageSource) :
    strContains (imagePlaceholderText source) (imageSourceType source) = true := by
  apply strContains_of_parts _ _ ("[Image (".data)
    (("): " ++ imageMediaType source ++ " not supported by Codex CLI]").data)
  simp [imagePlaceholderText, string_data_append, List.append_assoc]

theorem strContains_placeholder_media (source : Option ImageSource) :
    strContains (imagePlaceholderText source) (imageMediaType source) = true := by
  apply strContains_of_parts _ _ (("[Image (" ++ imageSourceType source ++ "): ").data)
    (" not supported by Codex CLI]".data)
  simp [imagePlaceholderText, string_data_append, List.append_assoc]

theorem filterBlock_not_image (b : AnthropicBlock) :
    blockIsImage (filterBlockForCodexCli b) = false := by
  cases b <;> simp [filterBlockForCodexCli, blockIsImage]

theorem contentImageCount_filterMessage (m : ChatMessage) :
    contentImageCount (filterMessageForCodexCli m).content = 0 := by
  obtain ⟨role, content⟩ := m
  cases content with
  | str s => rfl
  | blocks bs =>
    simp only [filterMessageForCodexCli, contentImageCount]
    rw [List.length_eq_zero, List.filter_eq_nil_iff]
    intro b hb
    rw [List.mem_map] at hb
    obtain ⟨a, _, rfl⟩ := hb
    simp [filterBlock_not_image]

/-- C6: the filtered message list contains zero image-kind content
blocks; the list and each block array keep their length, and each
original image block is replaced in place by exactly one text block
whose text names the image's source kind and media type (as
unsupported), so no image block ever reaches the prompt payload (whose
block type has no image variant). -/
theorem filterReplacesImagesWithTextPlaceholders (messages : List ChatMessage) :
    imageCount (filterMessagesForCodexCli messages) = 0
      ∧ (filterMessagesForCodexCli messages).length = messages.length
      ∧ ∀ i j m bs source, messages.get? i = some m → m.content = .blocks bs →
          bs.get? j = some (.image source) →
          ∃ bs', (filterMessagesForCodexCli messages).get? i
              = some { role := m.role, content := .blocks bs' }
            ∧ bs'.length = bs.length
            ∧ bs'.get? j = some (.text (imagePlaceholderText source))
            ∧ strContains (imagePlaceholderText source) (imageSourceType source) = true
            ∧ strContains (imagePlaceholderText source) (imageMediaType source) = true := by
  refine ⟨?_, by simp [filterMessagesForCodexCli], ?_⟩
  · induction messages with
    | nil => rfl
    | cons m rest ih =>
      simp only [filterMessagesForCodexCli, imageCount, List.map_cons, List.sum_cons] at ih ⊢
      rw [Nat.add_eq_zero]
      exact ⟨contentImageCount_filterMessage m, ih⟩
  · intro i j m bs source hi hc hj
    refine ⟨bs.map filterBlockForCodexCli, ?_, by simp, ?_,
      strContains_placeholder_source source, strContains_placeholder_media source⟩
    · unfold filterMessagesForCodexCli
      rw [List.get?_eq_getElem?, List.getElem?_map, ← List.get?_eq_getElem?, hi]
      obtain ⟨role, content⟩ := m
      simp only [] at hc
      subst hc
      rfl
    · rw [List.get?_eq_getElem?, List.getElem?_map, ← List.get?_eq_getElem?, hj]
      rfl

theorem filterReplacesImagesWithTextPlaceholders_witness :
    imageCount (filterMessagesForCodexCli
        [⟨.user, .blocks [.image (some ⟨"base64", some "image/png"⟩)]⟩]) = 0
      ∧ ∃ bs', (filterMessagesForCodexCli
            [⟨.user, .blocks [.image (some ⟨"base64", some "image/png"⟩)]⟩]).get? 0
          = some { role := Role.user, content := .blocks bs' }
        ∧ bs'.length = 1
        ∧ bs'.get? 0 = some (.text (imagePlaceholderText (some ⟨"base64", some "image/png"⟩)))
        ∧ strContains (imagePlaceholderText (some ⟨"base64", some "image/png"⟩))
            (imageSourceType (some ⟨"base64", some "image/png"⟩)) = true
        ∧ strContains (imagePlaceholderText (some ⟨"base64", some "image/png"⟩))
            (imageMediaType (some ⟨"base64", some "image/png"⟩)) = true :=
  ⟨(filterReplacesImagesWithTextPlaceholders
      [⟨.user, .blocks [.image (some ⟨"base64", some "image/png"⟩)]⟩]).1,
    (filterReplacesImagesWithTextPlaceholders
      [⟨.user, .blocks [.image (some ⟨"base64", some "image/png"⟩)]⟩]).2.2 0 0
      ⟨.user, .blocks [.image (some ⟨"base64", some "image/png"⟩)]⟩
      [.image (some ⟨"base64", some "image/png"⟩)] (some ⟨"base64", some "image/png"⟩)
      rfl rfl rfl⟩

/-- C7 counterexample: the accountant performs no clamping, so a usage
object with `input_tokens: -1` yields a chunk whose inputTokens is a
negative number, violating the non-negativity invariant as stated. -/
theorem usageTokensCanBeNegativeCounterexample :
    normalizeUsage (fun _ _ _ _ => 0) (some (.obj [("input_tokens", .num (-1))]))
        = some ⟨.num (-1), .num 0, none, none, none, 0⟩
      ∧ isNonnegNum (.num (-1)) = false :=
  ⟨rfl, rfl⟩

theorem okTokenField_nullish (a b : Option Json)
    (ha : okTokenField a = true) (hb : okTokenField b = true) :
    okTokenField (nullish a b) = true := by
  cases a with
  | none => simpa [nullish] using hb
  | some v => cases v <;> simp_all [nullish, okTokenField]

theorem isNonnegNum_jsNullishD (a : Option Json) (ha : okTokenField a = true) :
    isNonnegNum (jsNullishD a (.num 0)) = true := by
  cases a with
  | none => simp [jsNullishD, isNonnegNum]
  | some v => cases v <;> simp_all [jsNullishD, isNonnegNum, okTokenField]

theorem okTokenField_of_isNonnegNum (j : Json) (h : isNonnegNum j = true) :
    okTokenField (some j) = true := by
  cases j <;> simp_all [isNonnegNum, okTokenField]

theorem isNonnegNum_jsAdd (x y : Json)
    (hx : isNonnegNum x = true) (hy : isNonnegNum y = true) :
    isNonnegNum (jsAdd x y) = true := by
  cases x <;> cases y <;> simp_all [isNonnegNum, jsAdd]
  omega

/-- C7 amended: every usage chunk has non-negative numeric token counts
(inputTokens, outputTokens, and any present cacheWriteTokens,
cacheReadTokens, reasoningTokens) provided every token field the
accountant reads from the emitted usage object is absent, null, or a
non-negative number; without that restriction the invariant fails (see
the counterexample). -/
theorem usageTokensNonnegOnNonnegFields (cost : Json → Json → Json → Json → Int)
    (usage : Option Json) (u : UsageChunk)
    (hf : usageFieldsNonneg usage = true) (hn : normalizeUsage cost usage = some u) :
    usageChunkNonneg u = true := by
  cases usage with
  | none => simp [normalizeUsage, otruthy] at hn
  | some uj =>
    simp only [usageFieldsNonneg, Bool.and_eq_true] at hf
    rcases hf with ⟨⟨⟨⟨⟨⟨⟨⟨⟨⟨⟨h1, h2⟩, h3⟩, h4⟩, h5⟩, h6⟩, h7⟩, h8⟩, h9⟩, h10⟩, h11⟩, h12⟩
    unfold normalizeUsage at hn
    split at hn
    · exact absurd hn (by simp)
    · simp only [Option.getD_some, Option.some_inj] at hn
      subst hn
      have hcached : isNonnegNum (jsNullishD (oget (nullish (uj.get "input_tokens_details")
          (uj.get "prompt_tokens_details")) "cached_tokens") (.num 0)) = true :=
        isNonnegNum_jsNullishD _ h10
      have hmiss : isNonnegNum (jsNullishD (oget (nullish (uj.get "input_tokens_details")
          (uj.get "prompt_tokens_details")) "cache_miss_tokens") (.num 0)) = true :=
        isNonnegNum_jsNullishD _ h11
      have hinput0 : isNonnegNum (jsNullishD (nullish (uj.get "input_tokens")
          (uj.get "prompt_tokens")) (.num 0)) = true :=
        isNonnegNum_jsNullishD _ (okTokenField_nullish _ _ h1 h2)
      have houtput : isNonnegNum (jsNullishD (nullish (uj.get "output_tokens")
          (uj.get "completion_tokens")) (.num 0)) = true :=
        isNonnegNum_jsNullishD _ (okTokenField_nullish _ _ h3 h4)
      have hcw : isNonnegNum (jsNullishD (nullish (uj.get "cache_creation_input_tokens")
          (uj.get "cache_write_tokens")) (.num 0)) = true :=
        isNonnegNum_jsNullishD _ (okTokenField_nullish _ _ h5 h6)
      have hcr : isNonnegNum (jsNullishD (nullish (uj.get "cache_read_input_tokens")
          (nullish (uj.get "cache_read_tokens")
            (nullish (uj.get "cached_tokens")
              (some (jsNullishD (oget (nullish (uj.get "input_tokens_details")
                (uj.get "prompt_tokens_details")) "cached_tokens") (.num 0)))))) (.num 0)) = true :=
        isNonnegNum_jsNullishD _ (okTokenField_nullish _ _ h7 (okTokenField_nullish _ _ h8
          (okTokenField_nullish _ _ h9 (okTokenField_of_isNonnegNum _ hcached))))
      simp only [usageChunkNonneg, Bool.and_eq_true]
      refine ⟨⟨⟨⟨?_, ?_⟩, ?_⟩, ?_⟩, ?_⟩
      · split
        · exact isNonnegNum_jsAdd _ _ hcached hmiss
        · exact hinput0
      · exact houtput
      · split
        · exact hcw
        · rfl
      · split
        · exact hcr
        · rfl
      · split
        · rename_i n hr
          rw [hr] at h12
          simpa [okTokenField, chunkTokenOk, isNonnegNum] using h12
        · rfl

theorem usageTokensNonnegOnNonnegFields_witness :
    usageFieldsNonneg (some (.obj [("input_tokens", .num 10)])) = true
      ∧ usageChunkNonneg ⟨.num 10, .num 0, none, none, none, 0⟩ = true :=
  ⟨by decide,
    usageTokensNonnegOnNonnegFields (fun _ _ _ _ => 0) (some (.obj [("input_tokens", .num 10)]))
      ⟨.num 10, .num 0, none, none, none, 0⟩ (by decide) rfl⟩
